import Mathlib

/-
Verification development for the Interval Availability Engine of the
personal-assistant backend (calendar subsystem).

Shallow embedding notes:
* Timestamps are modelled as `Int`, counting seconds on the UTC timeline
  (`datetime` microseconds behave exactly like seconds in every formula of
  the source, so second granularity loses nothing the spec talks about).
* A request-boundary timestamp (`datetime` possibly naive) is a `DTime`:
  a wall-clock reading in seconds plus an optional UTC offset in seconds;
  `tz = none` models a naive datetime.
* The SQL row store is a `List Event` in insertion order; `select ... where`
  becomes `List.filter`, `session.get` / `.first()` become `List.find?`.
* `uuid4` identity assignment is modelled by an explicit `freshId` argument.
* HTTP error responses (400/409/404 + FastAPI `ge=` validation) are the
  error cases of `Err`; endpoints return `Except Err` results, mutating
  endpoints also return the post-call store.
* The `while` loop of `find_slots` is embedded with explicit fuel; the fuel
  bound used by `find_slots_core` is proved sufficient below (termination).
-/

namespace Calendar

deriving instance DecidableEq for Except

/-- Engine-level error taxonomy: malformed input (HTTP 400/422),
overlap conflict (HTTP 409), unknown id (HTTP 404). -/
inductive Err where
  | invalidInput
  | conflict
  | notFound
deriving DecidableEq, Repr

/-- A boundary timestamp: wall-clock seconds plus an optional explicit UTC
offset in seconds (`none` models a naive `datetime`). -/
structure DTime where
  wall : Int
  tz : Option Int
deriving DecidableEq, Repr

/-- Stored calendar row, mirroring `Event` of `src/app.py` (the legacy model
adds category/color/meta fields that none of the modelled operations read). -/
structure Event where
  id : String
  title : String
  start : Int
  «end» : Int
  location : Option String
  attendees_csv : Option String
  description : Option String
  idempotency_key : Option String
deriving DecidableEq, Repr

/-- Reporting-only busy block `(start, end)`, as in both API files. -/
structure BusyBlock where
  start : Int
  «end» : Int
deriving DecidableEq, Repr

/-- Request body of `events.create` (`EventCreate` in `src/app.py`). -/
structure EventCreate where
  title : String
  start : DTime
  «end» : DTime
  location : Option String
  attendees : Option (List String)
  description : Option String
  idempotency_key : Option String
deriving DecidableEq, Repr

/-- Request body of `events.update` (`EventUpdate` in `src/app.py`). -/
structure EventUpdate where
  id : String
  title : Option String
  start : Option DTime
  «end» : Option DTime
  location : Option String
  attendees : Option (List String)
  description : Option String
deriving DecidableEq, Repr

/-- Minimal response `{id, start, end}` returned by create/update. -/
structure EventResp where
  id : String
  start : Int
  «end» : Int
deriving DecidableEq, Repr

/-- Python truthiness of an `Optional[str]`: `None` and `""` are falsy. -/
def truthyStr : Option String → Bool
  | none => false
  | some s => !(s == "")

/-- Europe/London UTC offset (seconds) that `pytz` assigns to a naive wall
clock. The model pins the reference day outside British Summer Time, where
the zone coincides with UTC; the claims below depend only on the fact that a
naive timestamp is localized to a default zone instead of being rejected. -/
def londonOffset (_wall : Int) : Int := 0

/-- Model of `utc` in `src/app.py` lines 105-109: an aware timestamp is
converted to UTC; a NAIVE one is assumed to be Europe/London wall time and
converted (it is not rejected). -/
def utc (dt : DTime) : Int :=
  match dt.tz with
  | some off => dt.wall - off
  | none => dt.wall - londonOffset dt.wall

/-- Model of `datetime.astimezone(timezone.utc)` for an aware timestamp, as
used by the legacy calendar API after its explicit tz-awareness checks. -/
def astimezoneUTC (dt : DTime) : Int := dt.wall - dt.tz.getD 0

/-- Model of `overlaps` in `src/app.py` lines 111-112. -/
def overlaps (a_start a_end b_start b_end : Int) : Bool :=
  decide (max a_start b_start < min a_end b_end)

/-- Model of `_overlap` in `src/legacy_backup/api/calendar_api.py` lines
83-84 (textually the same predicate as `overlaps`). -/
def _overlap (a_start a_end b_start b_end : Int) : Bool :=
  decide (max a_start b_start < min a_end b_end)

/-- Model of `list_busy` in `src/app.py` lines 114-116: all stored events
with `start < end ∧ end > start` of the window, projected to busy blocks,
in store order. -/
def list_busy (store : List Event) (start «end» : Int) : List BusyBlock :=
  (store.filter (fun ev => decide (ev.start < «end» ∧ start < ev.«end»))).map
    (fun ev => ⟨ev.start, ev.«end»⟩)

/-- Model of `_list_busy` in the legacy calendar API lines 87-90 (same
query as `list_busy`). -/
def _list_busy (store : List Event) (start «end» : Int) : List BusyBlock :=
  (store.filter (fun ev => decide (ev.start < «end» ∧ start < ev.«end»))).map
    (fun ev => ⟨ev.start, ev.«end»⟩)

/-- Model of `_round_up` in the legacy calendar API lines 93-97: discard is
`minutes=dt.minute % minutes, seconds=dt.second` (microseconds subsumed into
seconds); if zero the instant is kept with seconds zeroed, otherwise the
discard is subtracted, `minutes` minutes are added and seconds zeroed. -/
def _round_up (dt : Int) (minutes : Int) : Int :=
  let minute := dt / 60 % 60
  let second := dt % 60
  let discard := 60 * (minute % minutes) + second
  if discard = 0 then dt - second
  else (dt - discard + 60 * minutes) - (dt - discard + 60 * minutes) % 60

/-- Grid instants of the rounding rule: minute-of-hour a multiple of `m` and
zero seconds (microseconds are subsumed by the second-resolution timeline). -/
def onBoundary (m t : Int) : Prop := t / 60 % 60 % m = 0 ∧ t % 60 = 0

instance (m t : Int) : Decidable (onBoundary m t) :=
  inferInstanceAs (Decidable (_ ∧ _))

/-- Stable insertion of a busy block into a list kept ascending by `start`. -/
def insertByStart (b : BusyBlock) : List BusyBlock → List BusyBlock
  | [] => [b]
  | c :: cs => if c.start ≤ b.start then c :: insertByStart b cs else b :: c :: cs

/-- Model of `sorted(busy, key=lambda b: b.start)` (stable sort by start). -/
def sortByStart : List BusyBlock → List BusyBlock
  | [] => []
  | b :: bs => insertByStart b (sortByStart bs)

/-- Fuel-indexed embedding of the `while t + dur <= we` sweep of
`find_slots` (legacy calendar API lines 131-146).  Each iteration scans the
sorted busy list for the first block whose buffer-inflated span overlaps the
candidate `[t, t+dur)`; on a hit the cursor jumps to
`round_up(max(t, b.end + buffer))`, otherwise the candidate is accepted and
the cursor advances to `round_up(candidate_end + buffer)`.  `none` means the
fuel budget was exhausted before the loop condition failed. -/
def findSlotsLoop (busy : List BusyBlock) (dur buffer m we : Int) :
    Nat → Int → Option (List BusyBlock)
  | 0, t => if t + dur ≤ we then none else some []
  | Nat.succ fuel, t =>
    if t + dur ≤ we then
      match busy.find?
          (fun b => _overlap t (t + dur) (b.start - buffer) (b.«end» + buffer)) with
      | some b =>
        findSlotsLoop busy dur buffer m we fuel
          (_round_up (max t (b.«end» + buffer)) m)
      | none =>
        (findSlotsLoop busy dur buffer m we fuel
          (_round_up (t + dur + buffer) m)).map (⟨t, t + dur⟩ :: ·)
    else some []

/-- Body of `find_slots` after input validation, on UTC-normalized window
bounds: sort the fetched busy blocks by start, set the cursor to the rounded
window start, and run the sweep.  The fuel `(we - t0).toNat + 1` is proved
sufficient below, so the `Option` is `some` for every valid request. -/
def find_slots_core (store : List Event) (duration_min round_to_min buffer_min : Int)
    (ws we : Int) : Option (List BusyBlock) :=
  let dur := 60 * duration_min
  let buffer := 60 * buffer_min
  let busy := sortByStart (_list_busy store ws we)
  let t0 := _round_up ws round_to_min
  findSlotsLoop busy dur buffer round_to_min we ((we - t0).toNat + 1) t0

/-- Model of the `availability.find_slots` endpoint (legacy calendar API
lines 111-146): FastAPI `ge=` validation of the numeric parameters, the
explicit tz-awareness check of the window bounds, then the sweep. -/
def find_slots (store : List Event) (duration_min : Int)
    (window_start window_end : DTime) (round_to_min buffer_min : Int) :
    Except Err (List BusyBlock) :=
  if duration_min < 5 ∨ round_to_min < 5 ∨ buffer_min < 0 then .error .invalidInput
  else if window_start.tz = none ∨ window_end.tz = none then .error .invalidInput
  else .ok ((find_slots_core store duration_min round_to_min buffer_min
    (astimezoneUTC window_start) (astimezoneUTC window_end)).getD [])

/-- Model of the legacy `availability.freebusy` endpoint (lines 100-108):
rejects naive bounds, otherwise lists busy blocks over the UTC window. -/
def legacy_freebusy (store : List Event) (start «end» : DTime) :
    Except Err (List BusyBlock) :=
  if start.tz = none ∨ «end».tz = none then .error .invalidInput
  else .ok (_list_busy store (astimezoneUTC start) (astimezoneUTC «end»))

/-- Model of the `availability.freebusy` endpoint of `src/app.py` line
163-165: no tz check at all, both bounds go through `utc`. -/
def freebusy (store : List Event) (start «end» : DTime) : List BusyBlock :=
  list_busy store (utc start) (utc «end»)

/-- Python `",".join(payload.attendees) if payload.attendees else None`
(truthiness: an empty list also yields `None`). -/
def attendeesCsvOfCreate : Option (List String) → Option String
  | some (a :: rest) => some (String.intercalate "," (a :: rest))
  | _ => none

/-- Row built by `events_create` on success (`Event(...)` at `src/app.py`
lines 213-217), with `freshId` standing for the `uuid4` default id. -/
def newEvOf (payload : EventCreate) (freshId : String) : Event :=
  ⟨freshId, payload.title, utc payload.start, utc payload.«end», payload.location,
    attendeesCsvOfCreate payload.attendees, payload.description,
    payload.idempotency_key⟩

/-- Model of `events_create` in `src/app.py` lines 203-220: idempotency-key
short circuit (Python truthiness, `.first()` lookup), then the overlap scan
over `list_busy`, then insertion.  `freshId` stands for the `uuid4` default;
the second component is the store after the call. -/
def events_create (store : List Event) (payload : EventCreate) (freshId : String) :
    Except Err EventResp × List Event :=
  let s := utc payload.start
  let e := utc payload.«end»
  let go : Except Err EventResp × List Event :=
    if (list_busy store s e).any (fun b => overlaps s e b.start b.«end») then
      (.error .conflict, store)
    else
      let ev : Event := newEvOf payload freshId
      (.ok ⟨ev.id, ev.start, ev.«end»⟩, store ++ [ev])
  if truthyStr payload.idempotency_key then
    match store.find? (fun ev => ev.idempotency_key == payload.idempotency_key) with
    | some ex => (.ok ⟨ex.id, ex.start, ex.«end»⟩, store)
    | none => go
  else go

/-- Resolution of the update's new start (`src/app.py` line 227): the
payload value through `utc` when supplied, else the stored value. -/
def resolvedStart (payload : EventUpdate) (ev : Event) : Int :=
  match payload.start with
  | some d => utc d
  | none => ev.start

/-- Resolution of the update's new end (`src/app.py` line 228). -/
def resolvedEnd (payload : EventUpdate) (ev : Event) : Int :=
  match payload.«end» with
  | some d => utc d
  | none => ev.«end»

/-- Field assignments of `events_update` (`src/app.py` lines 234-238):
`title`, `location`, `description` go through Python `or` (a falsy supplied
value keeps the old one), `attendees` is an `is not None` presence check. -/
def applyFields (payload : EventUpdate) (ns ne : Int) (ev : Event) : Event :=
  { ev with
    title := match payload.title with
      | some t => if t = "" then ev.title else t
      | none => ev.title
    start := ns
    «end» := ne
    location := match payload.location with
      | some l => if l = "" then ev.location else some l
      | none => ev.location
    attendees_csv := match payload.attendees with
      | some l => some (String.intercalate "," l)
      | none => ev.attendees_csv
    description := match payload.description with
      | some d => if d = "" then ev.description else some d
      | none => ev.description }

/-- Model of `events_update` in `src/app.py` lines 222-240: primary-key
lookup, bound resolution, the conflict scan that skips any busy block whose
bounds equal the record's own stored bounds (exclusion by value), then field
assignment and commit. -/
def events_update (store : List Event) (payload : EventUpdate) :
    Except Err EventResp × List Event :=
  match store.find? (fun ev => ev.id == payload.id) with
  | none => (.error .notFound, store)
  | some ev =>
    let ns := resolvedStart payload ev
    let ne := resolvedEnd payload ev
    if (list_busy store ns ne).any
        (fun b => !(b.start == ev.start && b.«end» == ev.«end») &&
          overlaps ns ne b.start b.«end») then
      (.error .conflict, store)
    else
      let ev' := applyFields payload ns ne ev
      (.ok ⟨ev.id, ns, ne⟩, store.map (fun e => if e.id == payload.id then ev' else e))

/-! ### Helper lemmas about `_round_up` -/

/-- Rounding up never moves the cursor backwards (for a positive grid). -/
lemma le_round_up (t m : Int) (hm : 1 ≤ m) : t ≤ _round_up t m := by
  have h1 : 0 ≤ t / 60 % 60 % m := Int.emod_nonneg _ (by omega)
  have h2 : t / 60 % 60 % m < m := Int.emod_lt_of_pos _ (by omega)
  simp only [_round_up]
  generalize hK : t / 60 % 60 % m = k at h1 h2 ⊢
  split <;> omega

/-- Bool-level unfolding of the shared overlap predicate. -/
lemma _overlap_eq_true_iff (a b c d : Int) :
    _overlap a b c d = true ↔ max a c < min b d := by
  simp [_overlap]

/-- A busy block that blocks the candidate `[t, t+dur)` ends (inflated)
strictly after `t`, so the cursor jump is a strict advance. -/
lemma lt_of_blocked {t dur bs be buffer : Int}
    (h : _overlap t (t + dur) (bs - buffer) (be + buffer) = true) :
    t < be + buffer := by
  rw [_overlap_eq_true_iff] at h
  omega

/-! ### Termination of the slot sweep -/

/-- With fuel exceeding the integer width of the remaining window, the sweep
never exhausts its fuel: the `while` loop of `find_slots` terminates. -/
lemma findSlotsLoop_isSome (busy : List BusyBlock) (dur buffer m we : Int)
    (hd : 1 ≤ dur) (hm : 1 ≤ m) (hb : 0 ≤ buffer) :
    ∀ (fuel : Nat) (t : Int), (we - t).toNat < fuel →
      (findSlotsLoop busy dur buffer m we fuel t).isSome := by
  intro fuel
  induction fuel with
  | zero => intro t h; exact absurd h (Nat.not_lt_zero _)
  | succ fuel ih =>
    intro t h
    simp only [findSlotsLoop]
    split
    case isTrue hle =>
      cases hfind : busy.find?
          (fun b => _overlap t (t + dur) (b.start - buffer) (b.«end» + buffer)) with
      | some b =>
        have hov := List.find?_some hfind
        have hbt : t < b.«end» + buffer := lt_of_blocked hov
        have hmono := le_round_up (max t (b.«end» + buffer)) m hm
        apply ih
        omega
      | none =>
        rw [Option.isSome_map']
        have hmono := le_round_up (t + dur + buffer) m hm
        apply ih
        omega
    case isFalse => simp

/-! ### Structural invariants of the slot sweep -/

/-- Soundness invariant of the sweep: every accepted slot starts no earlier
than the cursor, has exactly the requested length, avoids every
buffer-inflated busy block, and the slots are emitted in order with the next
slot starting no earlier than the previous slot's end. -/
lemma findSlotsLoop_sound (busy : List BusyBlock) (dur buffer m we : Int)
    (hd : 1 ≤ dur) (hm : 1 ≤ m) (hb : 0 ≤ buffer) :
    ∀ (fuel : Nat) (t : Int) (slots : List BusyBlock),
      findSlotsLoop busy dur buffer m we fuel t = some slots →
      (∀ s ∈ slots, t ≤ s.start ∧ s.«end» = s.start + dur ∧
        ∀ b ∈ busy, _overlap s.start s.«end» (b.start - buffer) (b.«end» + buffer) = false) ∧
      slots.Pairwise (fun s₁ s₂ => s₁.«end» ≤ s₂.start) := by
  intro fuel
  induction fuel with
  | zero =>
    intro t slots h
    simp only [findSlotsLoop] at h
    split at h
    · exact absurd h (by simp)
    · cases h; simp
  | succ fuel ih =>
    intro t slots h
    simp only [findSlotsLoop] at h
    split at h
    case isTrue hle =>
      cases hfind : busy.find?
          (fun b => _overlap t (t + dur) (b.start - buffer) (b.«end» + buffer)) with
      | some b =>
        rw [hfind] at h
        have hov := List.find?_some hfind
        have hbt : t < b.«end» + buffer := lt_of_blocked hov
        have hmono := le_round_up (max t (b.«end» + buffer)) m hm
        obtain ⟨h1, h2⟩ := ih _ _ h
        refine ⟨fun s hs => ?_, h2⟩
        obtain ⟨hs1, hs2, hs3⟩ := h1 s hs
        exact ⟨by omega, hs2, hs3⟩
      | none =>
        rw [hfind] at h
        rw [Option.map_eq_some'] at h
        obtain ⟨rest, hrest, hcons⟩ := h
        have hmono := le_round_up (t + dur + buffer) m hm
        obtain ⟨h1, h2⟩ := ih _ _ hrest
        have hall : ∀ b ∈ busy,
            _overlap t (t + dur) (b.start - buffer) (b.«end» + buffer) = false := by
          intro b hbmem
          have := List.find?_eq_none.mp hfind b hbmem
          simpa using this
        subst hcons
        constructor
        · intro s hs
          rcases List.mem_cons.mp hs with hhead | htail
          · subst hhead
            exact ⟨le_refl _, rfl, hall⟩
          · obtain ⟨hs1, hs2, hs3⟩ := h1 s htail
            exact ⟨by omega, hs2, hs3⟩
        · rw [List.pairwise_cons]
          refine ⟨fun s hs => ?_, h2⟩
          obtain ⟨hs1, _, _⟩ := h1 s hs
          show t + dur ≤ s.start
          omega
    case isFalse =>
      cases h; simp

/-! ### Arithmetic characterization of `_round_up` on grids dividing the hour -/

/-- When `m` divides 60, the rounding grid is exactly the set of multiples
of `60 * m` seconds. -/
lemma onBoundary_iff_dvd (m t : Int) (hdvd : m ∣ 60) :
    onBoundary m t ↔ (60 * m) ∣ t := by
  unfold onBoundary
  rw [Int.emod_emod_of_dvd _ hdvd]
  constructor
  · rintro ⟨h1, h2⟩
    obtain ⟨q, hq⟩ := Int.dvd_of_emod_eq_zero h1
    have h60 : (60 : Int) ∣ t := Int.dvd_of_emod_eq_zero h2
    have ht : 60 * (t / 60) = t := Int.mul_ediv_cancel' h60
    exact ⟨q, by rw [← ht, hq]; ring⟩
  · rintro ⟨q, rfl⟩
    constructor
    · have hq : 60 * m * q / 60 = m * q := by
        rw [mul_assoc]
        exact Int.mul_ediv_cancel_left _ (by norm_num)
      rw [hq]
      exact Int.emod_eq_zero_of_dvd ⟨q, rfl⟩
    · exact Int.emod_eq_zero_of_dvd ⟨m * q, by ring⟩

/-- When `m` divides 60, the discard computed from minute-of-hour and seconds
coincides with the remainder of the timestamp modulo the `60 * m` grid, so
`_round_up` is the ceiling to the grid. -/
lemma round_up_eq_of_dvd (t m : Int) (hm : 1 ≤ m) (hdvd : m ∣ 60) :
    _round_up t m = if (60 * m) ∣ t then t else t - t % (60 * m) + 60 * m := by
  have hmod : t / 60 % 60 % m = t / 60 % m := Int.emod_emod_of_dvd _ hdvd
  have hdis : 60 * (t / 60 % m) + t % 60 = t % (60 * m) := by
    have ha := Int.ediv_add_emod t 60
    have hb := Int.ediv_add_emod (t / 60) m
    have h1 : t = 60 * m * (t / 60 / m) + (60 * (t / 60 % m) + t % 60) := by
      linear_combination (-1 : Int) * ha - 60 * hb
    have hlow : 0 ≤ 60 * (t / 60 % m) + t % 60 := by
      have hr := Int.emod_nonneg (t / 60) (show m ≠ 0 by omega)
      omega
    have hhigh : 60 * (t / 60 % m) + t % 60 < 60 * m := by
      have hr := Int.emod_lt_of_pos (t / 60) (show 0 < m by omega)
      have hr2 := Int.emod_nonneg (t / 60) (show m ≠ 0 by omega)
      omega
    calc 60 * (t / 60 % m) + t % 60
        = (60 * (t / 60 % m) + t % 60) % (60 * m) :=
          (Int.emod_eq_of_lt hlow hhigh).symm
      _ = (60 * (t / 60 % m) + t % 60 + (60 * m) * (t / 60 / m)) % (60 * m) :=
          (Int.add_mul_emod_self_left _ _ _).symm
      _ = t % (60 * m) := by
          conv_rhs => rw [h1]
          ring_nf
  simp only [_round_up, hmod, hdis]
  by_cases hc : (60 * m) ∣ t
  · rw [if_pos (Int.emod_eq_zero_of_dvd hc), if_pos hc]
    have h60 : (60 : Int) ∣ t := dvd_trans ⟨m, by ring⟩ hc
    rw [Int.emod_eq_zero_of_dvd h60]
    ring
  · rw [if_neg (fun h0 => hc (Int.dvd_of_emod_eq_zero h0)), if_neg hc]
    have h1 : t - t % (60 * m) = 60 * m * (t / (60 * m)) := by
      rw [Int.emod_def]
      ring
    have h2 : (t - t % (60 * m) + 60 * m) % 60 = 0 := by
      rw [h1]
      exact Int.emod_eq_zero_of_dvd ⟨m * (t / (60 * m)) + m, by ring⟩
    rw [h2]
    ring

/-! ### Membership transfer through the stable sort and the busy query -/

lemma mem_insertByStart (b c : BusyBlock) (l : List BusyBlock) :
    c ∈ insertByStart b l ↔ c = b ∨ c ∈ l := by
  induction l with
  | nil => simp [insertByStart]
  | cons d ds ih =>
    simp only [insertByStart]
    split
    · rw [List.mem_cons, ih, List.mem_cons]
      tauto
    · rw [List.mem_cons]

lemma mem_sortByStart (b : BusyBlock) (l : List BusyBlock) :
    b ∈ sortByStart l ↔ b ∈ l := by
  induction l with
  | nil => simp [sortByStart]
  | cons d ds ih => simp [sortByStart, mem_insertByStart, ih]

lemma mem_list_busy (store : List Event) (ws we : Int) (b : BusyBlock) :
    b ∈ _list_busy store ws we ↔
      ∃ ev ∈ store, ev.start < we ∧ ws < ev.«end» ∧ b = ⟨ev.start, ev.«end»⟩ := by
  simp only [_list_busy, List.mem_map, List.mem_filter, decide_eq_true_eq]
  constructor
  · rintro ⟨ev, ⟨hmem, h1, h2⟩, rfl⟩
    exact ⟨ev, hmem, h1, h2, rfl⟩
  · rintro ⟨ev, hmem, h1, h2, rfl⟩
    exact ⟨ev, ⟨hmem, h1, h2⟩, rfl⟩

lemma mem_list_busy_app (store : List Event) (ws we : Int) (b : BusyBlock) :
    b ∈ list_busy store ws we ↔
      ∃ ev ∈ store, ev.start < we ∧ ws < ev.«end» ∧ b = ⟨ev.start, ev.«end»⟩ := by
  simp only [list_busy, List.mem_map, List.mem_filter, decide_eq_true_eq]
  constructor
  · rintro ⟨ev, ⟨hmem, h1, h2⟩, rfl⟩
    exact ⟨ev, hmem, h1, h2, rfl⟩
  · rintro ⟨ev, hmem, h1, h2, rfl⟩
    exact ⟨ev, ⟨hmem, h1, h2⟩, rfl⟩

/-- Bool-level unfolding of the `src/app.py` overlap predicate. -/
lemma overlaps_eq_true_iff (a b c d : Int) :
    overlaps a b c d = true ↔ max a c < min b d := by
  simp [overlaps]

/-- When looking up an event whose overlap test succeeds, the stored event
necessarily satisfies the range predicate of the busy query, so the busy
query never misses a conflicting event. -/
lemma any_overlap_busy_iff (store : List Event) (s e : Int) :
    ((list_busy store s e).any (fun b => overlaps s e b.start b.«end») = true) ↔
      ∃ ev ∈ store, overlaps s e ev.start ev.«end» = true := by
  rw [List.any_eq_true]
  constructor
  · rintro ⟨b, hbmem, hbp⟩
    obtain ⟨ev, hmem, _, _, rfl⟩ := (mem_list_busy_app store s e b).mp hbmem
    exact ⟨ev, hmem, hbp⟩
  · rintro ⟨ev, hmem, hov⟩
    have hb : (⟨ev.start, ev.«end»⟩ : BusyBlock) ∈ list_busy store s e := by
      rw [mem_list_busy_app]
      rw [overlaps_eq_true_iff] at hov
      exact ⟨ev, hmem, by omega, by omega, rfl⟩
    exact ⟨⟨ev.start, ev.«end»⟩, hb, hov⟩

/-- With no record matching the (truthy) idempotency key - and in particular
whenever no key is given - `events_create` reduces to the plain
conflict-check-then-insert path. -/
lemma events_create_no_key (store : List Event) (payload : EventCreate) (fid : String)
    (hk : truthyStr payload.idempotency_key = true →
      store.find? (fun e => e.idempotency_key == payload.idempotency_key) = none) :
    events_create store payload fid =
      if (list_busy store (utc payload.start) (utc payload.«end»)).any
          (fun b => overlaps (utc payload.start) (utc payload.«end») b.start b.«end») then
        (.error .conflict, store)
      else
        (.ok ⟨fid, utc payload.start, utc payload.«end»⟩,
          store ++ [newEvOf payload fid]) := by
  simp only [events_create]
  cases htr : truthyStr payload.idempotency_key with
  | true =>
    rw [hk htr]
    split <;> simp [newEvOf]
  | false =>
    simp only [Bool.false_eq_true, if_false]
    split <;> simp [newEvOf]

/-! ### Claim theorems -/

/-- C1: for all timestamps `aStart < aEnd` and `bStart < bEnd`,
`overlaps(aStart, aEnd, bStart, bEnd)` returns true iff
`max(aStart,bStart) < min(aEnd,bEnd)`; half-open intervals sharing only a
boundary do not overlap (A=[10:00,11:00), B=[11:00,12:00) is false) while
A=[10:00,11:00), B=[10:59,11:30) do overlap. -/
theorem overlaps_half_open (aStart aEnd bStart bEnd : Int)
    (ha : aStart < aEnd) (hb : bStart < bEnd) :
    (overlaps aStart aEnd bStart bEnd = true ↔ max aStart bStart < min aEnd bEnd) ∧
    overlaps 36000 39600 39600 43200 = false ∧
    overlaps 36000 39600 39540 41400 = true :=
  ⟨by simp [overlaps], by decide, by decide⟩

/-- Witness for C1 at 10:00-11:00 versus 10:59-11:30. -/
theorem overlaps_half_open_witness :
    (overlaps 36000 39600 39540 41400 = true ↔
      max (36000 : Int) 39540 < min 39600 41400) ∧
    overlaps 36000 39600 39600 43200 = false ∧
    overlaps 36000 39600 39540 41400 = true :=
  overlaps_half_open 36000 39600 39540 41400 (by norm_num) (by norm_num)

/-- C9 counterexample: at 10:58:00 (39480 s) with roundToMinutes = 7 (which
satisfies the `>= 5` precondition but does not divide 60), `_round_up`
returns 11:03:00 (39780 s), whose minute-of-hour 3 is NOT a multiple of 7,
and skips the strictly earlier grid instant 11:00:00 (39600 s) - so the
result is not the smallest later instant whose minute-of-hour is a multiple
of roundToMinutes. -/
theorem round_up_smallest_counterexample :
    _round_up 39480 7 = 39780 ∧ (39780 : Int) / 60 % 60 = 3 ∧
    ¬ (39780 : Int) / 60 % 60 % 7 = 0 ∧ ¬ onBoundary 7 39780 ∧
    onBoundary 7 39600 ∧ (39480 : Int) < 39600 ∧ (39600 : Int) < 39780 := by
  decide

/-- C9 (amended): `_round_up(t, m)` is a ceiling on minute-of-hour, not a
strict increment: a timestamp already on an `m`-minute boundary of the hour
(zero seconds) is returned unchanged - in particular a window starting
exactly at 08:00 with roundTo=30 yields cursor 08:00; and whenever `m`
divides 60, a timestamp not on a boundary is moved to the smallest strictly
later boundary instant.  (For `m` not dividing 60 the result is the previous
boundary plus `m` minutes, which need not itself lie on a boundary.) -/
theorem round_up_ceiling (t m : Int) (hm : 1 ≤ m) :
    (onBoundary m t → _round_up t m = t) ∧
    (m ∣ 60 → ¬ onBoundary m t →
      t < _round_up t m ∧ onBoundary m (_round_up t m) ∧
      ∀ x : Int, t < x → onBoundary m x → _round_up t m ≤ x) ∧
    _round_up 28800 30 = 28800 := by
  refine ⟨?_, ?_, by decide⟩
  · rintro ⟨h1, h2⟩
    simp [_round_up, h1, h2]
  · intro hdvd hnb
    rw [round_up_eq_of_dvd t m hm hdvd]
    rw [onBoundary_iff_dvd m t hdvd] at hnb
    rw [if_neg hnb]
    have hmodlt : t % (60 * m) < 60 * m := Int.emod_lt_of_pos t (by omega)
    have hmodge : 0 ≤ t % (60 * m) := Int.emod_nonneg t (by omega)
    have hmodne : t % (60 * m) ≠ 0 := fun h0 => hnb (Int.dvd_of_emod_eq_zero h0)
    have hD : t - t % (60 * m) = 60 * m * (t / (60 * m)) := by
      rw [Int.emod_def]
      ring
    refine ⟨by omega, ?_, ?_⟩
    · rw [onBoundary_iff_dvd m _ hdvd, hD]
      exact ⟨t / (60 * m) + 1, by ring⟩
    · intro x hx hbx
      rw [onBoundary_iff_dvd m x hdvd] at hbx
      obtain ⟨j, rfl⟩ := hbx
      rw [hD]
      have hDle : 60 * m * (t / (60 * m)) ≤ t := by omega
      have hDj : t / (60 * m) < j := by
        by_contra hle
        push_neg at hle
        have : 60 * m * j ≤ 60 * m * (t / (60 * m)) :=
          mul_le_mul_of_nonneg_left hle (by omega)
        linarith
      have hstep : t / (60 * m) + 1 ≤ j := hDj
      calc 60 * m * (t / (60 * m)) + 60 * m = 60 * m * (t / (60 * m) + 1) := by ring
        _ ≤ 60 * m * j := mul_le_mul_of_nonneg_left hstep (by omega)

/-- Witness for C9: 08:00:00 on the 30-minute grid is kept; 08:00:30 is off
the grid and is moved up to exactly 08:30:00, the smallest later boundary. -/
theorem round_up_ceiling_witness :
    _round_up 28800 30 = 28800 ∧ 28830 < _round_up 28830 30 ∧
    onBoundary 30 (_round_up 28830 30) ∧ _round_up 28830 30 ≤ 30600 :=
  ⟨(round_up_ceiling 28800 30 (by norm_num)).1 (by decide),
   ((round_up_ceiling 28830 30 (by norm_num)).2.1 (by decide) (by decide)).1,
   ((round_up_ceiling 28830 30 (by norm_num)).2.1 (by decide) (by decide)).2.1,
   ((round_up_ceiling 28830 30 (by norm_num)).2.1 (by decide) (by decide)).2.2
     30600 (by decide) (by decide)⟩

/-- C3 counterexample: the reference run (busy=[09:00,10:00), window
[08:00,12:00), duration 30, roundTo 30, buffer 0) returns SIX slots, not
five as claimed - the claim's own list already names six intervals. -/
theorem find_slots_reference_count_counterexample :
    (find_slots [⟨ "e1", "Busy", 32400, 36000, none, none, none, none⟩] 30
      ⟨28800, some 0⟩ ⟨43200, some 0⟩ 30 0).map List.length = .ok 6 ∧
    (find_slots [⟨ "e1", "Busy", 32400, 36000, none, none, none, none⟩] 30
      ⟨28800, some 0⟩ ⟨43200, some 0⟩ 30 0).map List.length ≠ .ok 5 := by
  constructor
  · rfl
  · decide

/-- C3 (amended): for a store containing only the busy interval
[09:00,10:00), `find_slots` over window [08:00,12:00) with duration 30,
roundTo 30, buffer 0 returns exactly SIX slots, in the order [08:00,08:30),
[08:30,09:00), then (09:00 blocked, cursor jumps) [10:00,10:30),
[10:30,11:00), [11:00,11:30), [11:30,12:00), none overlapping the busy
interval. -/
theorem find_slots_reference_run :
    find_slots [⟨ "e1", "Busy", 32400, 36000, none, none, none, none⟩] 30
      ⟨28800, some 0⟩ ⟨43200, some 0⟩ 30 0 =
      .ok [⟨28800, 30600⟩, ⟨30600, 32400⟩, ⟨36000, 37800⟩, ⟨37800, 39600⟩,
        ⟨39600, 41400⟩, ⟨41400, 43200⟩] ∧
    ([⟨28800, 30600⟩, ⟨30600, 32400⟩, ⟨36000, 37800⟩, ⟨37800, 39600⟩,
        ⟨39600, 41400⟩, ⟨41400, 43200⟩] : List BusyBlock).all
      (fun s => !(_overlap s.start s.«end» 32400 36000)) = true := by
  constructor
  · rfl
  · decide

/-- C6 counterexample: `events_create` of `src/app.py` accepts a payload
whose timestamps carry NO timezone offset (naive datetimes): the call
succeeds instead of failing with InvalidInput, because `utc` localizes
naive input to the default Europe/London zone. -/
theorem naive_accepted_counterexample :
    (events_create [] ⟨ "T", ⟨32400, none⟩, ⟨36000, none⟩, none, none, none, none⟩
      "id1").1 = .ok ⟨ "id1", 32400, 36000⟩ ∧
    (events_create [] ⟨ "T", ⟨32400, none⟩, ⟨36000, none⟩, none, none, none, none⟩
      "id1").1 ≠ .error .invalidInput := by
  constructor
  · rfl
  · decide

/-- C6 (amended): only the legacy calendar API rejects offset-less window
bounds with InvalidInput (`freebusy` and `find_slots`); the `src/app.py`
operations never raise InvalidInput at all - a naive timestamp is instead
assumed to be Europe/London wall time and converted to UTC by `utc`. -/
theorem naive_rejected_only_in_legacy (store : List Event) (d bf m : Int)
    (s e : DTime) (hnaive : s.tz = none ∨ e.tz = none) :
    legacy_freebusy store s e = .error .invalidInput ∧
    find_slots store d s e m bf = .error .invalidInput ∧
    (∀ dt : DTime, dt.tz = none → utc dt = dt.wall - londonOffset dt.wall) ∧
    (∀ (st : List Event) (p : EventCreate) (fid : String),
      (events_create st p fid).1 ≠ .error .invalidInput) ∧
    (∀ (st : List Event) (p : EventUpdate),
      (events_update st p).1 ≠ .error .invalidInput) := by
  refine ⟨?_, ?_, ?_, ?_, ?_⟩
  · rw [legacy_freebusy, if_pos hnaive]
  · by_cases hparam : d < 5 ∨ m < 5 ∨ bf < 0
    · rw [find_slots, if_pos hparam]
    · rw [find_slots, if_neg hparam, if_pos hnaive]
  · intro dt h
    simp [utc, h]
  · intro st p fid h
    simp only [events_create] at h
    split at h
    · split at h
      · simp at h
      · split at h
        · simp at h
        · simp at h
    · split at h
      · simp at h
      · simp at h
  · intro st p h
    simp only [events_update] at h
    split at h
    · simp at h
    · split at h
      · simp at h
      · simp at h

/-- Witness for C6 at a naive 08:00 window start. -/
theorem naive_rejected_only_in_legacy_witness :
    legacy_freebusy [] ⟨28800, none⟩ ⟨43200, some 0⟩ = .error .invalidInput ∧
    find_slots [] 30 ⟨28800, none⟩ ⟨43200, some 0⟩ 30 0 = .error .invalidInput :=
  ⟨(naive_rejected_only_in_legacy [] 30 0 30 ⟨28800, none⟩ ⟨43200, some 0⟩
      (Or.inl rfl)).1,
   (naive_rejected_only_in_legacy [] 30 0 30 ⟨28800, none⟩ ⟨43200, some 0⟩
      (Or.inl rfl)).2.1⟩

/-- C7: for every store of busy intervals and every input satisfying the
preconditions (duration >= 5, roundTo >= 5, buffer >= 0, timezone-aware
window bounds), the forward-sweep loop of `find_slots` terminates within its
fuel bound and the endpoint returns a finite slot list. -/
theorem find_slots_terminates (store : List Event) (d m bf : Int) (ws we : DTime)
    (hd : 5 ≤ d) (hm : 5 ≤ m) (hb : 0 ≤ bf)
    (hws : ws.tz ≠ none) (hwe : we.tz ≠ none) :
    (find_slots_core store d m bf (astimezoneUTC ws) (astimezoneUTC we)).isSome ∧
    find_slots store d ws we m bf =
      .ok ((find_slots_core store d m bf (astimezoneUTC ws)
        (astimezoneUTC we)).getD []) := by
  constructor
  · simp only [find_slots_core]
    apply findSlotsLoop_isSome _ _ _ _ _ (by omega) (by omega) (by omega)
    omega
  · rw [find_slots, if_neg (by omega), if_neg (not_or.mpr ⟨hws, hwe⟩)]

/-- Witness for C7 on an empty store and the reference window. -/
theorem find_slots_terminates_witness :
    (find_slots_core [] 30 30 0 (astimezoneUTC ⟨28800, some 0⟩)
      (astimezoneUTC ⟨43200, some 0⟩)).isSome ∧
    find_slots [] 30 ⟨28800, some 0⟩ ⟨43200, some 0⟩ 30 0 =
      .ok ((find_slots_core [] 30 30 0 (astimezoneUTC ⟨28800, some 0⟩)
        (astimezoneUTC ⟨43200, some 0⟩)).getD []) :=
  find_slots_terminates [] 30 30 0 ⟨28800, some 0⟩ ⟨43200, some 0⟩
    (by norm_num) (by norm_num) (by norm_num) (by decide) (by decide)

/-- C8: every slot returned by `find_slots` has length exactly the requested
duration (in seconds, `60 * durationMinutes`), the slots appear in strictly
increasing start order and are pairwise disjoint (each slot ends no later
than the next begins), and no returned slot overlaps any fetched busy
interval inflated by the buffer on both sides, under the Overlap
Predicate. -/
theorem find_slots_output_invariants (store : List Event) (d m bf : Int)
    (ws we : DTime) (slots : List BusyBlock)
    (hd : 5 ≤ d) (hm : 5 ≤ m) (hb : 0 ≤ bf)
    (hok : find_slots store d ws we m bf = .ok slots) :
    (∀ s ∈ slots, s.«end» - s.start = 60 * d) ∧
    slots.Pairwise (fun s₁ s₂ => s₁.start < s₂.start) ∧
    slots.Pairwise (fun s₁ s₂ => s₁.«end» ≤ s₂.start) ∧
    (∀ s ∈ slots, ∀ b ∈ _list_busy store (astimezoneUTC ws) (astimezoneUTC we),
      _overlap s.start s.«end» (b.start - 60 * bf) (b.«end» + 60 * bf) = false) := by
  rw [find_slots, if_neg (by omega)] at hok
  split at hok
  · exact absurd hok (by simp)
  · have hisSome : (find_slots_core store d m bf (astimezoneUTC ws)
        (astimezoneUTC we)).isSome := by
      simp only [find_slots_core]
      apply findSlotsLoop_isSome _ _ _ _ _ (by omega) (by omega) (by omega)
      omega
    obtain ⟨slots0, hs0⟩ := Option.isSome_iff_exists.mp hisSome
    rw [Except.ok.injEq] at hok
    rw [hs0] at hok
    simp only [Option.getD_some] at hok
    rw [hok] at hs0
    simp only [find_slots_core] at hs0
    obtain ⟨h1, h2⟩ := findSlotsLoop_sound
      (sortByStart (_list_busy store (astimezoneUTC ws) (astimezoneUTC we)))
      (60 * d) (60 * bf) m (astimezoneUTC we)
      (by omega) (by omega) (by omega) _ _ _ hs0
    refine ⟨?_, ?_, h2, ?_⟩
    · intro s hs
      obtain ⟨_, hlen, _⟩ := h1 s hs
      omega
    · refine h2.imp_of_mem ?_
      intro a b hma hmb hab
      obtain ⟨_, hla, _⟩ := h1 a hma
      omega
    · intro s hs b hbmem
      obtain ⟨_, _, hno⟩ := h1 s hs
      exact hno b ((mem_sortByStart _ _).mpr hbmem)

/-- Witness for C8 on the reference run: the six slots are strictly ordered
and pairwise disjoint. -/
theorem find_slots_output_invariants_witness :
    ([⟨28800, 30600⟩, ⟨30600, 32400⟩, ⟨36000, 37800⟩, ⟨37800, 39600⟩,
        ⟨39600, 41400⟩, ⟨41400, 43200⟩] : List BusyBlock).Pairwise
      (fun s₁ s₂ => s₁.start < s₂.start) ∧
    ([⟨28800, 30600⟩, ⟨30600, 32400⟩, ⟨36000, 37800⟩, ⟨37800, 39600⟩,
        ⟨39600, 41400⟩, ⟨41400, 43200⟩] : List BusyBlock).Pairwise
      (fun s₁ s₂ => s₁.«end» ≤ s₂.start) :=
  ⟨(find_slots_output_invariants
      [⟨ "e1", "Busy", 32400, 36000, none, none, none, none⟩] 30 30 0
      ⟨28800, some 0⟩ ⟨43200, some 0⟩ _
      (by norm_num) (by norm_num) (by norm_num) rfl).2.1,
   (find_slots_output_invariants
      [⟨ "e1", "Busy", 32400, 36000, none, none, none, none⟩] 30 30 0
      ⟨28800, some 0⟩ ⟨43200, some 0⟩ _
      (by norm_num) (by norm_num) (by norm_num) rfl).2.2.1⟩

/-- C2: on update, a stored interval is excluded from the conflict check
exactly when its stored bounds both equal the pre-update bounds of the
record being updated (exclusion by value, not by id); consequently updating
[09:00,10:00) to [09:15,10:15) with no other stored intervals succeeds, and
a distinct record with coincidentally identical bounds is also excluded. -/
theorem events_update_excludes_by_value (store : List Event) (payload : EventUpdate)
    (ev : Event) (hfind : store.find? (fun e => e.id == payload.id) = some ev) :
    ((events_update store payload).1 = .error .conflict ↔
      ∃ b ∈ list_busy store (resolvedStart payload ev) (resolvedEnd payload ev),
        ¬(b.start = ev.start ∧ b.«end» = ev.«end») ∧
        overlaps (resolvedStart payload ev) (resolvedEnd payload ev)
          b.start b.«end» = true) ∧
    (events_update [⟨ "e1", "T", 32400, 36000, none, none, none, none⟩]
        ⟨ "e1", none, some ⟨33300, some 0⟩, some ⟨36900, some 0⟩, none, none, none⟩).1 =
      .ok ⟨ "e1", 33300, 36900⟩ ∧
    (events_update [⟨ "e1", "T", 32400, 36000, none, none, none, none⟩,
        ⟨ "e2", "T2", 32400, 36000, none, none, none, none⟩]
        ⟨ "e1", none, some ⟨33300, some 0⟩, some ⟨36900, some 0⟩, none, none, none⟩).1 =
      .ok ⟨ "e1", 33300, 36900⟩ := by
  refine ⟨?_, by rfl, by rfl⟩
  simp only [events_update, hfind]
  split
  case isTrue hany =>
    refine ⟨fun _ => ?_, fun _ => rfl⟩
    rw [List.any_eq_true] at hany
    obtain ⟨b, hbmem, hbp⟩ := hany
    simp only [Bool.and_eq_true, Bool.not_eq_true', Bool.and_eq_false_iff,
      beq_iff_eq, beq_eq_false_iff_ne] at hbp
    exact ⟨b, hbmem, by tauto, hbp.2⟩
  case isFalse hany =>
    refine ⟨fun hcon => absurd hcon (by simp), fun hex => ?_⟩
    exfalso
    apply hany
    rw [List.any_eq_true]
    obtain ⟨b, hbmem, hne, hov⟩ := hex
    refine ⟨b, hbmem, ?_⟩
    simp only [Bool.and_eq_true, Bool.not_eq_true', Bool.and_eq_false_iff,
      beq_iff_eq, beq_eq_false_iff_ne]
    exact ⟨by tauto, hov⟩

/-- Witness for C2: a single stored interval [09:00,10:00) moved to
[09:15,10:15) does not conflict with itself. -/
theorem events_update_excludes_by_value_witness :
    (events_update [⟨ "e1", "T", 32400, 36000, none, none, none, none⟩]
        ⟨ "e1", none, some ⟨33300, some 0⟩, some ⟨36900, some 0⟩, none, none, none⟩).1 =
      .ok ⟨ "e1", 33300, 36900⟩ :=
  (events_update_excludes_by_value
    [⟨ "e1", "T", 32400, 36000, none, none, none, none⟩]
    ⟨ "e1", none, some ⟨33300, some 0⟩, some ⟨36900, some 0⟩, none, none, none⟩
    ⟨ "e1", "T", 32400, 36000, none, none, none, none⟩ (by decide)).2.1

/-- C5: create without a matching idempotency key fails with Conflict iff
some stored interval overlaps the request under the Overlap Predicate; on
Conflict no record is added; otherwise the new interval is persisted with
the assigned identity.  With [09:00,10:00) stored, creating [09:30,10:30)
conflicts while the adjacent [10:00,11:00) succeeds. -/
theorem events_create_conflict_iff (store : List Event) (payload : EventCreate)
    (fid : String)
    (hk : truthyStr payload.idempotency_key = true →
      store.find? (fun e => e.idempotency_key == payload.idempotency_key) = none) :
    ((events_create store payload fid).1 = .error .conflict ↔
      ∃ ev ∈ store,
        overlaps (utc payload.start) (utc payload.«end») ev.start ev.«end» = true) ∧
    ((events_create store payload fid).1 = .error .conflict →
      (events_create store payload fid).2 = store) ∧
    ((events_create store payload fid).1 ≠ .error .conflict →
      events_create store payload fid =
        (.ok ⟨fid, utc payload.start, utc payload.«end»⟩,
          store ++ [newEvOf payload fid])) ∧
    (events_create [⟨ "e1", "Busy", 32400, 36000, none, none, none, none⟩]
        ⟨ "Meet", ⟨34200, some 0⟩, ⟨37800, some 0⟩, none, none, none, none⟩
        "f1").1 = .error .conflict ∧
    (events_create [⟨ "e1", "Busy", 32400, 36000, none, none, none, none⟩]
        ⟨ "Meet", ⟨36000, some 0⟩, ⟨39600, some 0⟩, none, none, none, none⟩
        "f1").1 = .ok ⟨ "f1", 36000, 39600⟩ := by
  rw [events_create_no_key store payload fid hk]
  refine ⟨?_, ?_, ?_, by rfl, by rfl⟩
  · split
    case isTrue hany =>
      simp only [true_iff]
      exact (any_overlap_busy_iff store _ _).mp hany
    case isFalse hany =>
      constructor
      · intro hcon
        exact absurd hcon (by simp)
      · intro hex
        exact absurd ((any_overlap_busy_iff store _ _).mpr hex) hany
  · split
    · intro _
      rfl
    · intro hcon
      exact absurd hcon (by simp)
  · split
    case isTrue hany =>
      intro hcon
      exact absurd rfl hcon
    · intro _
      rfl

/-- Witness for C5: conflict on [09:30,10:30) and success on the adjacent
[10:00,11:00) against a stored [09:00,10:00). -/
theorem events_create_conflict_iff_witness :
    (events_create [⟨ "e1", "Busy", 32400, 36000, none, none, none, none⟩]
        ⟨ "Meet", ⟨34200, some 0⟩, ⟨37800, some 0⟩, none, none, none, none⟩
        "f1").1 = .error .conflict ∧
    (events_create [⟨ "e1", "Busy", 32400, 36000, none, none, none, none⟩]
        ⟨ "Meet", ⟨36000, some 0⟩, ⟨39600, some 0⟩, none, none, none, none⟩
        "f1").1 = .ok ⟨ "f1", 36000, 39600⟩ :=
  ⟨(events_create_conflict_iff
      [⟨ "e1", "Busy", 32400, 36000, none, none, none, none⟩]
      ⟨ "Meet", ⟨34200, some 0⟩, ⟨37800, some 0⟩, none, none, none, none⟩
      "f1" (by decide)).2.2.2.1,
   (events_create_conflict_iff
      [⟨ "e1", "Busy", 32400, 36000, none, none, none, none⟩]
      ⟨ "Meet", ⟨36000, some 0⟩, ⟨39600, some 0⟩, none, none, none, none⟩
      "f1" (by decide)).2.2.2.2⟩

/-- C4 counterexample: with a stored interval [09:00,10:00) (no key), BOTH
calls of create([09:30,10:30), key="k1") fail with Conflict - no interval id
is returned at all, so it is not true that for EVERY store state two creates
with the same idempotency key return the identical id. -/
theorem events_create_idempotent_counterexample :
    (events_create [⟨ "e1", "Busy", 32400, 36000, none, none, none, none⟩]
      ⟨ "Meet", ⟨34200, some 0⟩, ⟨37800, some 0⟩, none, none, none, some "k1"⟩
      "f1").1 = .error .conflict ∧
    (events_create
      ((events_create [⟨ "e1", "Busy", 32400, 36000, none, none, none, none⟩]
        ⟨ "Meet", ⟨34200, some 0⟩, ⟨37800, some 0⟩, none, none, none, some "k1"⟩
        "f1").2)
      ⟨ "Meet", ⟨34200, some 0⟩, ⟨37800, some 0⟩, none, none, none, some "k1"⟩
      "f2").1 = .error .conflict := by
  constructor
  · rfl
  · rfl

/-- C4 (amended): create is idempotent under a truthy (non-empty)
idempotency key whenever the replayed request can be stored at all: if a
record with the key exists it is returned unchanged with no insertion and
no overlap check (the result does not depend on any overlap); if no record
with the key exists and no stored interval overlaps the request, the first
call inserts exactly one record and the second call returns the same id and
leaves the store unchanged, with exactly one stored record carrying the
key. -/
theorem events_create_idempotent_replay (store : List Event) (payload : EventCreate)
    (fid fid2 : String) (hk : truthyStr payload.idempotency_key = true) :
    (∀ ex, store.find? (fun e => e.idempotency_key == payload.idempotency_key) =
        some ex →
      events_create store payload fid = (.ok ⟨ex.id, ex.start, ex.«end»⟩, store)) ∧
    (store.find? (fun e => e.idempotency_key == payload.idempotency_key) = none →
      (∀ ev ∈ store,
        overlaps (utc payload.start) (utc payload.«end») ev.start ev.«end» = false) →
      events_create store payload fid =
        (.ok ⟨fid, utc payload.start, utc payload.«end»⟩,
          store ++ [newEvOf payload fid]) ∧
      events_create (store ++ [newEvOf payload fid]) payload fid2 =
        (.ok ⟨fid, utc payload.start, utc payload.«end»⟩,
          store ++ [newEvOf payload fid]) ∧
      ((store ++ [newEvOf payload fid]).filter
        (fun e => e.idempotency_key == payload.idempotency_key)).length = 1) := by
  constructor
  · intro ex hex
    simp [events_create, hk, hex]
  · intro hnone hov
    have hanyfalse : ∀ st : List Event,
        (∀ ev ∈ st,
          overlaps (utc payload.start) (utc payload.«end») ev.start ev.«end» = false) →
        ((list_busy st (utc payload.start) (utc payload.«end»)).any
          (fun b => overlaps (utc payload.start) (utc payload.«end»)
            b.start b.«end»)) = false := by
      intro st hst
      rw [← Bool.not_eq_true, any_overlap_busy_iff]
      rintro ⟨ev, hmem, hovt⟩
      rw [hst ev hmem] at hovt
      exact Bool.false_ne_true hovt
    have hfirst : events_create store payload fid =
        (.ok ⟨fid, utc payload.start, utc payload.«end»⟩,
          store ++ [newEvOf payload fid]) := by
      rw [events_create_no_key store payload fid (fun _ => hnone)]
      rw [if_neg (by rw [hanyfalse store hov]; exact Bool.false_ne_true)]
    have hpred : ((newEvOf payload fid).idempotency_key ==
        payload.idempotency_key) = true := by
      simp [newEvOf]
    have hfind2 : (store ++ [newEvOf payload fid]).find?
        (fun e => e.idempotency_key == payload.idempotency_key) =
        some (newEvOf payload fid) := by
      rw [List.find?_append, hnone]
      simp [hpred]
    refine ⟨hfirst, ?_, ?_⟩
    · have := hfind2
      simp only [events_create, hk, if_true]
      rw [hfind2]
      simp [newEvOf]
    · rw [List.filter_append]
      have hstore : store.filter
          (fun e => e.idempotency_key == payload.idempotency_key) = [] := by
        rw [List.filter_eq_nil_iff]
        intro a ha
        exact List.find?_eq_none.mp hnone a ha
      rw [hstore]
      simp [hpred]

/-- Witness for C4: replaying create([10:00,11:00), key="k1") against an
empty store inserts once and returns the same id twice. -/
theorem events_create_idempotent_replay_witness :
    events_create [] ⟨ "Meet", ⟨36000, some 0⟩, ⟨39600, some 0⟩, none, none,
        none, some "k1"⟩ "a" =
      (.ok ⟨ "a", 36000, 39600⟩,
        [newEvOf ⟨ "Meet", ⟨36000, some 0⟩, ⟨39600, some 0⟩, none, none,
          none, some "k1"⟩ "a"]) ∧
    events_create [newEvOf ⟨ "Meet", ⟨36000, some 0⟩, ⟨39600, some 0⟩, none, none,
        none, some "k1"⟩ "a"]
      ⟨ "Meet", ⟨36000, some 0⟩, ⟨39600, some 0⟩, none, none, none, some "k1"⟩ "b" =
      (.ok ⟨ "a", 36000, 39600⟩,
        [newEvOf ⟨ "Meet", ⟨36000, some 0⟩, ⟨39600, some 0⟩, none, none,
          none, some "k1"⟩ "a"]) ∧
    ([newEvOf ⟨ "Meet", ⟨36000, some 0⟩, ⟨39600, some 0⟩, none, none,
        none, some "k1"⟩ "a"].filter
      (fun e => e.idempotency_key == some "k1")).length = 1 :=
  (events_create_idempotent_replay [] ⟨ "Meet", ⟨36000, some 0⟩, ⟨39600, some 0⟩,
    none, none, none, some "k1"⟩ "a" "b" (by decide)).2 rfl (by simp)

/-- C10: on update, a supplied-but-falsy (empty string) title, location, or
description leaves the stored field at its previous value, exactly as if it
had not been supplied, and the record's id is never changed by an update. -/
theorem events_update_falsy_fields_keep (store : List Event) (payload : EventUpdate)
    (ev : Event) (hfind : store.find? (fun e => e.id == payload.id) = some ev)
    (hok : (events_update store payload).1 ≠ .error .conflict) :
    (events_update store payload).2 =
      store.map (fun e => if e.id == payload.id then
        applyFields payload (resolvedStart payload ev) (resolvedEnd payload ev) ev
      else e) ∧
    ((payload.title = none ∨ payload.title = some "") →
      (applyFields payload (resolvedStart payload ev) (resolvedEnd payload ev)
        ev).title = ev.title) ∧
    ((payload.location = none ∨ payload.location = some "") →
      (applyFields payload (resolvedStart payload ev) (resolvedEnd payload ev)
        ev).location = ev.location) ∧
    ((payload.description = none ∨ payload.description = some "") →
      (applyFields payload (resolvedStart payload ev) (resolvedEnd payload ev)
        ev).description = ev.description) ∧
    (applyFields payload (resolvedStart payload ev) (resolvedEnd payload ev)
      ev).id = ev.id := by
  refine ⟨?_, ?_, ?_, ?_, ?_⟩
  · simp only [events_update, hfind]
    split
    case isTrue h =>
      exfalso
      apply hok
      simp only [events_update, hfind]
      rw [if_pos h]
    case isFalse h =>
      rfl
  · rintro (h | h) <;> simp [applyFields, h]
  · rintro (h | h) <;> simp [applyFields, h]
  · rintro (h | h) <;> simp [applyFields, h]
  · simp [applyFields]

/-- Witness for C10: empty-string title/location/description supplied on an
update keep the stored values, and the id is unchanged. -/
theorem events_update_falsy_fields_keep_witness :
    (events_update [⟨ "e1", "T", 32400, 36000, some "L", none, some "D", none⟩]
        ⟨ "e1", some "", none, none, some "", none, some ""⟩).2 =
      [⟨ "e1", "T", 32400, 36000, some "L", none, some "D", none⟩] ∧
    (applyFields ⟨ "e1", some "", none, none, some "", none, some ""⟩
      (resolvedStart ⟨ "e1", some "", none, none, some "", none, some ""⟩
        ⟨ "e1", "T", 32400, 36000, some "L", none, some "D", none⟩)
      (resolvedEnd ⟨ "e1", some "", none, none, some "", none, some ""⟩
        ⟨ "e1", "T", 32400, 36000, some "L", none, some "D", none⟩)
      ⟨ "e1", "T", 32400, 36000, some "L", none, some "D", none⟩).title = "T" ∧
    (applyFields ⟨ "e1", some "", none, none, some "", none, some ""⟩
      (resolvedStart ⟨ "e1", some "", none, none, some "", none, some ""⟩
        ⟨ "e1", "T", 32400, 36000, some "L", none, some "D", none⟩)
      (resolvedEnd ⟨ "e1", some "", none, none, some "", none, some ""⟩
        ⟨ "e1", "T", 32400, 36000, some "L", none, some "D", none⟩)
      ⟨ "e1", "T", 32400, 36000, some "L", none, some "D", none⟩).location =
      some "L" ∧
    (applyFields ⟨ "e1", some "", none, none, some "", none, some ""⟩
      (resolvedStart ⟨ "e1", some "", none, none, some "", none, some ""⟩
        ⟨ "e1", "T", 32400, 36000, some "L", none, some "D", none⟩)
      (resolvedEnd ⟨ "e1", some "", none, none, some "", none, some ""⟩
        ⟨ "e1", "T", 32400, 36000, some "L", none, some "D", none⟩)
      ⟨ "e1", "T", 32400, 36000, some "L", none, some "D", none⟩).description =
      some "D" ∧
    (applyFields ⟨ "e1", some "", none, none, some "", none, some ""⟩
      (resolvedStart ⟨ "e1", some "", none, none, some "", none, some ""⟩
        ⟨ "e1", "T", 32400, 36000, some "L", none, some "D", none⟩)
      (resolvedEnd ⟨ "e1", some "", none, none, some "", none, some ""⟩
        ⟨ "e1", "T", 32400, 36000, some "L", none, some "D", none⟩)
      ⟨ "e1", "T", 32400, 36000, some "L", none, some "D", none⟩).id = "e1" :=
  ⟨(events_update_falsy_fields_keep
      [⟨ "e1", "T", 32400, 36000, some "L", none, some "D", none⟩]
      ⟨ "e1", some "", none, none, some "", none, some ""⟩
      ⟨ "e1", "T", 32400, 36000, some "L", none, some "D", none⟩
      (by decide) (by decide)).1,
   (events_update_falsy_fields_keep
      [⟨ "e1", "T", 32400, 36000, some "L", none, some "D", none⟩]
      ⟨ "e1", some "", none, none, some "", none, some ""⟩
      ⟨ "e1", "T", 32400, 36000, some "L", none, some "D", none⟩
      (by decide) (by decide)).2.1 (Or.inr rfl),
   (events_update_falsy_fields_keep
      [⟨ "e1", "T", 32400, 36000, some "L", none, some "D", none⟩]
      ⟨ "e1", some "", none, none, some "", none, some ""⟩
      ⟨ "e1", "T", 32400, 36000, some "L", none, some "D", none⟩
      (by decide) (by decide)).2.2.1 (Or.inr rfl),
   (events_update_falsy_fields_keep
      [⟨ "e1", "T", 32400, 36000, some "L", none, some "D", none⟩]
      ⟨ "e1", some "", none, none, some "", none, some ""⟩
      ⟨ "e1", "T", 32400, 36000, some "L", none, some "D", none⟩
      (by decide) (by decide)).2.2.2.1 (Or.inr rfl),
   (events_update_falsy_fields_keep
      [⟨ "e1", "T", 32400, 36000, some "L", none, some "D", none⟩]
      ⟨ "e1", some "", none, none, some "", none, some ""⟩
      ⟨ "e1", "T", 32400, 36000, some "L", none, some "D", none⟩
      (by decide) (by decide)).2.2.2.2⟩

end Calendar
